import Mathlib

/-!
Verification of the OSDF node.js client (`src/osdf.js`) against its
natural-language specification.

The development shallowly embeds the parts of `osdf.js` that the claims
are about:

* the paginated query aggregator `make_query_all_callback_helper` /
  `make_query_all_promise_helper` (source lines 1178-1280), modelled as a
  fuel-indexed loop over an injected single-page fetch capability.  The
  JavaScript loop (`async.doWhilst`) has no fuel; nontermination of the
  source loop is modelled by the fuel running out, i.e. by the outcome
  `none`.  The list of page numbers passed to the fetch capability is
  threaded through the loop explicitly so that sequencing/termination
  claims about the performed fetches can be stated;
* the shared HTTP response decoders `make_regular_cb` / `make_promise_cb`
  (lines 1122-1176), used by every GET operation and by the single-page
  query operations;
* the response handling of `insert_node` (lines 599-676), including the
  extraction of the node id from the `location` header via
  `location.split('/').pop()`, modelled on the character list of the
  header value.
-/

/-- Decidable equality of fallible results, used only to let witnesses
evaluate concrete runs with `decide`. -/
instance {ε α : Type} [DecidableEq ε] [DecidableEq α] :
    DecidableEq (Except ε α) := fun x y =>
  match x, y with
  | .error a, .error b =>
    if h : a = b then .isTrue (by rw [h])
    else .isFalse (fun hh => h (Except.error.inj hh))
  | .error _, .ok _ => .isFalse (fun hh => Except.noConfusion hh)
  | .ok _, .error _ => .isFalse (fun hh => Except.noConfusion hh)
  | .ok a, .ok b =>
    if h : a = b then .isTrue (by rw [h])
    else .isFalse (fun hh => h (Except.ok.inj hh))

namespace Osdf

/-- One page of search results, as delivered by the OSDF server
(`page_result` in the source): an ordered list of result items plus the
count metadata described in the spec's data model. The aggregation loop
only ever reads the `results` field. -/
structure Page (α : Type) where
  results : List α
  result_count : Nat
  search_result_total : Nat
  page : Nat
deriving DecidableEq

/-- The aggregated output built by the final callback of
`make_query_all_callback_helper` / `make_query_all_promise_helper`
(source lines 1216-1220 and 1268-1272).  By construction it has exactly
the three fields `search_result_total`, `result_count` and `results` and
no `page` field. -/
structure AggResult (α : Type) where
  search_result_total : Nat
  result_count : Nat
  results : List α
deriving DecidableEq

/-- A query in one of the two dialects: an opaque OQL query string, or a
structured (ElasticSearch-style) filter object.  The payloads are opaque
to the aggregator. -/
inductive Query (σ φ : Type) where
  | str : σ → Query σ φ
  | filter : φ → Query σ φ
deriving DecidableEq

/-- The `_.isString(query)` test used by both aggregation helpers to pick
the single-page fetch operation. -/
def Query.isString {σ φ : Type} : Query σ φ → Bool
  | .str _ => true
  | .filter _ => false

/-- The part of the `osdf` client object that the aggregation helpers
use: the two single-page query operations.  Each takes the query, the
namespace and a 1-based page number and either fails with an error value
(the `err` argument of the node-style callback) or succeeds with a page.
-/
structure OsdfClient (σ φ ε α : Type) where
  oql_query_page : Query σ φ → String → Nat → Except ε (Page α)
  query_page : Query σ φ → String → Nat → Except ε (Page α)

/-- The `async.doWhilst` loop of `make_query_all_callback_helper`
(source lines 1191-1211), with the mutable state (`page`,
`all_results`) passed explicitly and the sequence of page numbers given
to the fetch capability recorded in `calls`.  `fuel` bounds the number
of iterations; returning `none` in the second component means the fuel
ran out, i.e. the source loop would still be running. -/
def query_all_cb_loop {ε α : Type} (fetch : Nat → Except ε (Page α)) :
    Nat → Nat → List α → List Nat → List Nat × Option (Except ε (List α))
  | 0, _, _, calls => (calls, none)
  | fuel + 1, page, all_results, calls =>
    match fetch page with
    | .error err => (calls ++ [page], some (.error err))
    | .ok page_result =>
      if page_result.results.length > 0 then
        query_all_cb_loop fetch fuel (page + 1)
          (all_results ++ page_result.results) (calls ++ [page])
      else
        (calls ++ [page], some (.ok all_results))

/-- The `async.doWhilst` loop of `make_query_all_promise_helper`
(source lines 1243-1263); the loop body is textually identical to the
one in the callback helper. -/
def query_all_promise_loop {ε α : Type} (fetch : Nat → Except ε (Page α)) :
    Nat → Nat → List α → List Nat → List Nat × Option (Except ε (List α))
  | 0, _, _, calls => (calls, none)
  | fuel + 1, page, all_results, calls =>
    match fetch page with
    | .error err => (calls ++ [page], some (.error err))
    | .ok page_result =>
      if page_result.results.length > 0 then
        query_all_promise_loop fetch fuel (page + 1)
          (all_results ++ page_result.results) (calls ++ [page])
      else
        (calls ++ [page], some (.ok all_results))

/-- The final callback of `make_query_all_callback_helper` (source lines
1212-1224): on error it invokes `callback(err, null)`, on success it
invokes `callback(null, final)` with the aggregated object.  The pair
models the two arguments of the node-style callback. -/
def finalize_cb {ε α : Type} (out : Except ε (List α)) :
    Option ε × Option (AggResult α) :=
  match out with
  | .error err => (some err, none)
  | .ok all_results =>
    (none, some
      { search_result_total := all_results.length
        result_count := all_results.length
        results := all_results })

/-- The final callback of `make_query_all_promise_helper` (source lines
1264-1276): `reject(err)` on error, `resolve(final)` on success. -/
def finalize_promise {ε α : Type} (out : Except ε (List α)) :
    Except ε (AggResult α) :=
  match out with
  | .error err => .error err
  | .ok all_results =>
    .ok
      { search_result_total := all_results.length
        result_count := all_results.length
        results := all_results }

/-- `make_query_all_callback_helper` (source lines 1178-1227): selects
the single-page fetch operation by `_.isString(query)`, runs the
`doWhilst` loop from page 1 with an empty accumulator, and reports the
outcome through the node-style callback.  The first component is the
recorded sequence of fetched page numbers. -/
def make_query_all_callback_helper {σ φ ε α : Type} (c : OsdfClient σ φ ε α)
    (query : Query σ φ) (ns : String) (fuel : Nat) :
    List Nat × Option (Option ε × Option (AggResult α)) :=
  let func := if query.isString then c.oql_query_page else c.query_page
  let r := query_all_cb_loop (fun page => func query ns page) fuel 1 [] []
  (r.1, r.2.map finalize_cb)

/-- `make_query_all_promise_helper` (source lines 1229-1280): the same
loop reporting its outcome through promise resolution. -/
def make_query_all_promise_helper {σ φ ε α : Type} (c : OsdfClient σ φ ε α)
    (query : Query σ φ) (ns : String) (fuel : Nat) :
    List Nat × Option (Except ε (AggResult α)) :=
  let func := if query.isString then c.oql_query_page else c.query_page
  let r := query_all_promise_loop (fun page => func query ns page) fuel 1 [] []
  (r.1, r.2.map finalize_promise)

/-- The single-page fetch capability that the helpers actually run the
loop with: the dialect-selected page operation applied to the fixed
query and namespace. -/
def page_fetch {σ φ ε α : Type} (c : OsdfClient σ φ ε α) (query : Query σ φ)
    (ns : String) (page : Nat) : Except ε (Page α) :=
  (if query.isString then c.oql_query_page else c.query_page) query ns page

/-- Translation of a promise-style aggregation outcome into the
callback-style convention: a rejection `err` corresponds to
`callback(err, null)` and a resolution `final` to
`callback(null, final)`. -/
def cb_view {ε α : Type} (r : List Nat × Option (Except ε (AggResult α))) :
    List Nat × Option (Option ε × Option (AggResult α)) :=
  (r.1, r.2.map fun out =>
    match out with
    | .error err => (some err, none)
    | .ok final => (none, some final))

/-- A JavaScript value passed as the error argument: either a string
(the `x-osdf-error` header or `statusMessage`) or a number (the numeric
status code). -/
inductive JsVal where
  | str : String → JsVal
  | num : Nat → JsVal
deriving DecidableEq

/-- An HTTP response as read by the client's response handlers: the
status code, the optional `statusMessage`, the headers (a JavaScript
object, modelled as an association list with at most one value per key,
first binding wins) and the accumulated body. -/
structure Response where
  statusCode : Nat
  statusMessage : Option String
  headers : List (String × String)
  body : String
deriving DecidableEq

/-- The `end` handler built by `make_regular_cb` (source lines
1122-1144).  `parse` stands for `JSON.parse`; the result pair models the
two arguments `(err, data)` of the invoked callback. -/
def make_regular_cb {J : Type} (parse : String → J) (response : Response) :
    Option JsVal × Option J :=
  if 200 ≤ response.statusCode ∧ response.statusCode < 300 then
    (none, some (parse response.body))
  else
    match List.lookup "x-osdf-error" response.headers with
    | some v => (some (.str v), none)
    | none =>
      match response.statusMessage with
      | some m => (some (.str m), none)
      | none => (some (.num response.statusCode), none)

/-- The `end` handler built by `make_promise_cb` (source lines
1154-1176): `resolve`/`reject` become the two sides of `Except`. -/
def make_promise_cb {J : Type} (parse : String → J) (response : Response) :
    Except JsVal J :=
  if 200 ≤ response.statusCode ∧ response.statusCode < 300 then
    .ok (parse response.body)
  else
    match List.lookup "x-osdf-error" response.headers with
    | some v => .error (.str v)
    | none =>
      match response.statusMessage with
      | some m => .error (.str m)
      | none => .error (.num response.statusCode)

/-- The error value prescribed by the spec's fixed precedence, written
from the claim's words: the `x-osdf-error` header value if that header
is present, otherwise the response's `statusMessage` if present,
otherwise the numeric status code. -/
def error_value_spec (response : Response) : JsVal :=
  if hx : (List.lookup "x-osdf-error" response.headers).isSome then
    JsVal.str ((List.lookup "x-osdf-error" response.headers).get hx)
  else if hm : response.statusMessage.isSome then
    JsVal.str (response.statusMessage.get hm)
  else
    JsVal.num response.statusCode

/-- JavaScript's `String.prototype.split(sep)` on the character list of
a string: always returns at least one (possibly empty) segment, and one
extra segment per separator occurrence. -/
def splitChar (sep : Char) : List Char → List (List Char)
  | [] => [[]]
  | c :: cs =>
    if c = sep then
      [] :: splitChar sep cs
    else
      match splitChar sep cs with
      | [] => [[c]]
      | h :: t => (c :: h) :: t

/-- The claim-side reading of "the substring after the last `sep`":
recurse past everything up to and including the last occurrence of
`sep`; a string without `sep` is returned whole. -/
def after_last_sep (sep : Char) : List Char → List Char
  | [] => []
  | c :: cs =>
    if sep ∈ cs then after_last_sep sep cs
    else if c = sep then cs
    else c :: cs

/-- The substring of `s` after its last `'/'` character (the claim's
description of the node id extracted by `insert_node`). -/
def after_last_slash (s : String) : String :=
  String.mk (after_last_sep (Char.ofNat 47) s.data)

/-- The `end` handler of `insert_node`'s promise branch (source lines
642-663): on a 201 response the node id is
`response.headers.location.split('/').pop()`.  The outer `Option` is
`none` exactly when the source would throw (reading `.split` of an
absent `location` header on a 201 response); otherwise the promise
resolves with the node id or rejects with the usual error value. -/
def insert_node_promise_end (response : Response) :
    Option (Except JsVal String) :=
  if response.statusCode = 201 then
    match List.lookup "location" response.headers with
    | some location =>
      some (.ok (String.mk
        ((splitChar (Char.ofNat 47) location.data).getLastD [])))
    | none => none
  else
    match List.lookup "x-osdf-error" response.headers with
    | some v => some (.error (.str v))
    | none =>
      match response.statusMessage with
      | some m => some (.error (.str m))
      | none => some (.error (.num response.statusCode))

/-- The `end` handler of `insert_node`'s callback branch (source lines
609-629); the inner pair models the `(err, node_id)` callback
arguments. -/
def insert_node_cb_end (response : Response) :
    Option (Option JsVal × Option String) :=
  if response.statusCode = 201 then
    match List.lookup "location" response.headers with
    | some location =>
      some (none, some (String.mk
        ((splitChar (Char.ofNat 47) location.data).getLastD [])))
    | none => none
  else
    match List.lookup "x-osdf-error" response.headers with
    | some v => some (some (.str v), none)
    | none =>
      match response.statusMessage with
      | some m => some (some (.str m), none)
      | none => some (some (.num response.statusCode), none)

/-- A concrete single-page fetch behaviour for witnesses: serves
`pages` in order (1-based), an empty page past the end, and fails with
`"boom"` at page `failAt` when given. -/
def testFetch (pages : List (List Nat)) (failAt : Option Nat) (page : Nat) :
    Except String (Page Nat) :=
  if failAt = some page then .error "boom"
  else
    match pages.get? (page - 1) with
    | some rs => .ok ⟨rs, rs.length, rs.length, page⟩
    | none => .ok ⟨[], 0, 0, page⟩

/-- A concrete client for witnesses whose two page operations both
serve `testFetch pages failAt`, ignoring query and namespace. -/
def testClient (pages : List (List Nat)) (failAt : Option Nat) :
    OsdfClient String Nat String Nat where
  oql_query_page := fun _ _ page => testFetch pages failAt page
  query_page := fun _ _ page => testFetch pages failAt page

/-- Unfolding lemma: the callback helper is the callback loop run with
the dialect-selected page fetch, starting from page 1 with empty
accumulator and empty call log, finalized by the node-style callback. -/
theorem helper_cb_eq {σ φ ε α : Type} (c : OsdfClient σ φ ε α) (q : Query σ φ)
    (ns : String) (fuel : Nat) :
    make_query_all_callback_helper c q ns fuel =
      ((query_all_cb_loop (page_fetch c q ns) fuel 1 [] []).1,
       (query_all_cb_loop (page_fetch c q ns) fuel 1 [] []).2.map finalize_cb) :=
  rfl

/-- Unfolding lemma for the promise helper, analogous to `helper_cb_eq`. -/
theorem helper_promise_eq {σ φ ε α : Type} (c : OsdfClient σ φ ε α)
    (q : Query σ φ) (ns : String) (fuel : Nat) :
    make_query_all_promise_helper c q ns fuel =
      ((query_all_promise_loop (page_fetch c q ns) fuel 1 [] []).1,
       (query_all_promise_loop (page_fetch c q ns) fuel 1 [] []).2.map
         finalize_promise) :=
  rfl

/-- The two textually identical `doWhilst` loops compute the same
function. -/
theorem promise_loop_eq_cb_loop {ε α : Type} (fetch : Nat → Except ε (Page α)) :
    ∀ (fuel page : Nat) (acc : List α) (calls : List Nat),
      query_all_promise_loop fetch fuel page acc calls =
        query_all_cb_loop fetch fuel page acc calls := by
  intro fuel
  induction fuel with
  | zero => intro page acc calls; rfl
  | succ n ih =>
    intro page acc calls
    simp only [query_all_promise_loop, query_all_cb_loop]
    rcases hf : fetch page with e | pr
    · rfl
    · by_cases h : pr.results.length > 0
      · simp only [if_pos h]; exact ih _ _ _
      · simp only [if_neg h]

/-- Running the loop over a successful page sequence whose last page is
empty and whose earlier pages are all non-empty: every page is fetched
exactly once in increasing order and the accumulator collects the pages'
result lists in order. -/
theorem cb_loop_success {ε α : Type} (f : Nat → Except ε (Page α)) :
    ∀ (prs : List (Page α)) (start : Nat) (acc : List α) (calls : List Nat)
      (fuel : Nat) (lastPr : Page α),
      (∀ i (h : i < prs.length), f (start + i) = Except.ok prs[i]) →
      (∀ i (h : i < prs.length), i + 1 < prs.length → (prs[i]).results ≠ []) →
      prs.getLast? = some lastPr → lastPr.results = [] →
      prs.length ≤ fuel →
      query_all_cb_loop f fuel start acc calls =
        (calls ++ List.range' start prs.length,
         some (Except.ok (acc ++ (prs.map Page.results).flatten))) := by
  intro prs
  induction prs with
  | nil => intro start acc calls fuel lastPr hf hne hlast hemp hfuel; simp at hlast
  | cons p rest ih =>
    intro start acc calls fuel lastPr hf hne hlast hemp hfuel
    obtain ⟨fuel, rfl⟩ : ∃ n, fuel = n + 1 := by
      cases fuel with
      | zero => simp at hfuel
      | succ n => exact ⟨n, rfl⟩
    have h0 : f start = Except.ok p := by simpa using hf 0 (by simp)
    cases rest with
    | nil =>
      have hp : p.results = [] := by
        have hpl : p = lastPr := by simpa using hlast
        rw [hpl]; exact hemp
      simp only [query_all_cb_loop, h0]
      rw [if_neg (by simp [hp])]
      simp [hp, List.range'_one]
    | cons q rest2 =>
      have hpne : p.results ≠ [] := by
        have h1 : (0 : Nat) < (p :: q :: rest2).length := by simp
        simpa using hne 0 h1 (by simp)
      have hlen : p.results.length > 0 := List.length_pos.mpr hpne
      simp only [query_all_cb_loop, h0]
      rw [if_pos hlen]
      have hrec := ih (start + 1) (acc ++ p.results) (calls ++ [start]) fuel lastPr
        (by
          intro i h
          have h2 : i + 1 < (p :: q :: rest2).length := by
            simp only [List.length_cons] at h ⊢; omega
          have hfi := hf (i + 1) h2
          have harith : start + (i + 1) = start + 1 + i := by omega
          rw [harith] at hfi
          simpa using hfi)
        (by
          intro i h hlt
          have h2 : i + 1 < (p :: q :: rest2).length := by
            simp only [List.length_cons] at h ⊢; omega
          have h3 : (i + 1) + 1 < (p :: q :: rest2).length := by
            simp only [List.length_cons] at hlt ⊢; omega
          simpa using hne (i + 1) h2 h3)
        (by rw [List.getLast?_cons_cons] at hlast; exact hlast)
        hemp
        (by simp only [List.length_cons] at hfuel ⊢; omega)
      rw [hrec]
      simp [List.range'_succ, List.append_assoc]

/-- Running the loop over a successful non-empty prefix followed by a
failing fetch: the failing page is the last one fetched and the error is
returned as-is. -/
theorem cb_loop_error {ε α : Type} (f : Nat → Except ε (Page α)) :
    ∀ (prs : List (Page α)) (start : Nat) (acc : List α) (calls : List Nat)
      (fuel : Nat) (e : ε),
      (∀ i (h : i < prs.length), f (start + i) = Except.ok prs[i]) →
      (∀ i (h : i < prs.length), (prs[i]).results ≠ []) →
      f (start + prs.length) = Except.error e →
      prs.length + 1 ≤ fuel →
      query_all_cb_loop f fuel start acc calls =
        (calls ++ List.range' start (prs.length + 1),
         some (Except.error e)) := by
  intro prs
  induction prs with
  | nil =>
    intro start acc calls fuel e hf hne herr hfuel
    obtain ⟨fuel, rfl⟩ : ∃ n, fuel = n + 1 := by
      cases fuel with
      | zero => omega
      | succ n => exact ⟨n, rfl⟩
    have h0 : f start = Except.error e := by simpa using herr
    simp only [query_all_cb_loop, h0]
    simp [List.range'_one]
  | cons p rest ih =>
    intro start acc calls fuel e hf hne herr hfuel
    obtain ⟨fuel, rfl⟩ : ∃ n, fuel = n + 1 := by
      cases fuel with
      | zero => simp at hfuel
      | succ n => exact ⟨n, rfl⟩
    have h0 : f start = Except.ok p := by simpa using hf 0 (by simp)
    have hpne : p.results ≠ [] := by simpa using hne 0 (by simp)
    have hlen : p.results.length > 0 := List.length_pos.mpr hpne
    simp only [query_all_cb_loop, h0]
    rw [if_pos hlen]
    have hrec := ih (start + 1) (acc ++ p.results) (calls ++ [start]) fuel e
      (by
        intro i h
        have h2 : i + 1 < (p :: rest).length := by
          simp only [List.length_cons] at h ⊢; omega
        have hfi := hf (i + 1) h2
        have harith : start + (i + 1) = start + 1 + i := by omega
        rw [harith] at hfi
        simpa using hfi)
      (by
        intro i h
        have h2 : i + 1 < (p :: rest).length := by
          simp only [List.length_cons] at h ⊢; omega
        simpa using hne (i + 1) h2)
      (by
        have harith : start + (p :: rest).length = start + 1 + rest.length := by
          simp only [List.length_cons]; omega
        rw [harith] at herr
        exact herr)
      (by simp only [List.length_cons] at hfuel ⊢; omega)
    rw [hrec]
    simp [List.range'_succ, List.append_assoc]

/-- For an arbitrary fetch capability the loop's call log is an initial
gap-free run `start, start+1, ...` of page numbers, and every fetched
page except possibly the final one returned a non-empty success. -/
theorem cb_loop_trace {ε α : Type} (f : Nat → Except ε (Page α)) :
    ∀ (fuel start : Nat) (acc : List α) (calls : List Nat),
      ∃ k, k ≤ fuel ∧
        (query_all_cb_loop f fuel start acc calls).1 =
          calls ++ List.range' start k ∧
        ∀ i, i + 1 < k →
          ∃ pr, f (start + i) = Except.ok pr ∧ pr.results ≠ [] := by
  intro fuel
  induction fuel with
  | zero =>
    intro start acc calls
    exact ⟨0, Nat.le_refl 0, by simp [query_all_cb_loop],
      fun i hi => absurd hi (by omega)⟩
  | succ n ih =>
    intro start acc calls
    rcases hf : f start with e | pr
    · refine ⟨1, by omega, ?_, fun i hi => absurd hi (by omega)⟩
      simp [query_all_cb_loop, hf, List.range'_one]
    · by_cases h : pr.results.length > 0
      · obtain ⟨k, hk, htr, hcond⟩ := ih (start + 1) (acc ++ pr.results)
          (calls ++ [start])
        refine ⟨k + 1, by omega, ?_, ?_⟩
        · have hstep : query_all_cb_loop f (n + 1) start acc calls =
              query_all_cb_loop f n (start + 1) (acc ++ pr.results)
                (calls ++ [start]) := by
            simp only [query_all_cb_loop, hf, if_pos h]
          rw [hstep, htr]
          simp [List.range'_succ, List.append_assoc]
        · intro i hi
          cases i with
          | zero =>
            exact ⟨pr, by simpa using hf, List.length_pos.mp h⟩
          | succ j =>
            obtain ⟨pr2, hok, hne⟩ := hcond j (by omega)
            refine ⟨pr2, ?_, hne⟩
            have harith : start + (j + 1) = start + 1 + j := by omega
            rw [harith]
            exact hok
      · refine ⟨1, by omega, ?_, fun i hi => absurd hi (by omega)⟩
        simp [query_all_cb_loop, hf, if_neg h, List.range'_one]

/-- Dropping a final empty page does not change the concatenation of the
pages' result lists. -/
theorem flatten_eq_dropLast_flatten {α : Type} :
    ∀ (prs : List (Page α)) (lastPr : Page α),
      prs.getLast? = some lastPr → lastPr.results = [] →
      (prs.map Page.results).flatten =
        (prs.dropLast.map Page.results).flatten := by
  intro prs
  induction prs with
  | nil => intro lastPr h _; simp at h
  | cons p rest ih =>
    intro lastPr hlast hemp
    cases rest with
    | nil =>
      have hpl : p = lastPr := by simpa using hlast
      subst hpl
      simp [hemp]
    | cons q rest2 =>
      rw [List.getLast?_cons_cons] at hlast
      have htail := ih lastPr hlast hemp
      simp only [List.map_cons, List.flatten_cons] at htail
      simp only [List.dropLast_cons₂, List.map_cons, List.flatten_cons]
      rw [htail]

/-- Claim C1: for every query and every fetch capability that returns a
finite sequence of successful pages whose last page is empty and whose
earlier pages are non-empty, the aggregation succeeds with `results`
equal to the concatenation of the non-empty pages' result lists in page
order, with `result_count` and `search_result_total` both equal to that
concatenation's length.  The output type `AggResult` has exactly the
fields `search_result_total`, `result_count` and `results`, so the
output carries no `page` field. -/
theorem query_all_aggregates_all_pages {σ φ ε α : Type}
    (c : OsdfClient σ φ ε α) (q : Query σ φ) (ns : String) (fuel : Nat)
    (prs : List (Page α)) (lastPr : Page α)
    (hf : ∀ i (h : i < prs.length), page_fetch c q ns (1 + i) = Except.ok prs[i])
    (hne : ∀ i (h : i < prs.length), i + 1 < prs.length → (prs[i]).results ≠ [])
    (hlast : prs.getLast? = some lastPr) (hemp : lastPr.results = [])
    (hfuel : prs.length ≤ fuel) :
    make_query_all_callback_helper c q ns fuel =
      (List.range' 1 prs.length,
       some (none, some
         { search_result_total := ((prs.dropLast.map Page.results).flatten).length
           result_count := ((prs.dropLast.map Page.results).flatten).length
           results := (prs.dropLast.map Page.results).flatten })) := by
  rw [helper_cb_eq,
    cb_loop_success (page_fetch c q ns) prs 1 [] [] fuel lastPr hf hne hlast
      hemp hfuel]
  simp only [List.nil_append]
  rw [flatten_eq_dropLast_flatten prs lastPr hlast hemp]
  rfl

/-- Claim C2: if the pages `1 .. prs.length` succeed with non-empty
results and the fetch of the next page fails with `e`, the aggregation
fails with `e` itself, carries no partial results, and no page beyond
the failing one is ever fetched. -/
theorem query_all_error_propagation {σ φ ε α : Type}
    (c : OsdfClient σ φ ε α) (q : Query σ φ) (ns : String) (fuel : Nat)
    (prs : List (Page α)) (e : ε)
    (hf : ∀ i (h : i < prs.length), page_fetch c q ns (1 + i) = Except.ok prs[i])
    (hne : ∀ i (h : i < prs.length), (prs[i]).results ≠ [])
    (herr : page_fetch c q ns (1 + prs.length) = Except.error e)
    (hfuel : prs.length + 1 ≤ fuel) :
    make_query_all_promise_helper c q ns fuel =
      (List.range' 1 (prs.length + 1), some (Except.error e)) ∧
    ∀ j, prs.length + 1 < j →
      j ∉ (make_query_all_promise_helper c q ns fuel).1 := by
  have hmain : make_query_all_promise_helper c q ns fuel =
      (List.range' 1 (prs.length + 1), some (Except.error e)) := by
    rw [helper_promise_eq, promise_loop_eq_cb_loop,
      cb_loop_error (page_fetch c q ns) prs 1 [] [] fuel e hf hne herr hfuel]
    simp [finalize_promise]
  refine ⟨hmain, ?_⟩
  intro j hj hmem
  rw [hmain] at hmem
  have hmem2 : j ∈ List.range' 1 (prs.length + 1) := hmem
  rw [List.mem_range'_1] at hmem2
  omega

/-- Claim C3: for every query and fetch capability, the page numbers
passed to the fetch are exactly `1, 2, 3, ...` with no repeats and no
gaps, and a page `n + 1` is fetched only if page `n` completed
successfully with a non-empty result list. -/
theorem query_all_page_sequencing {σ φ ε α : Type} (c : OsdfClient σ φ ε α)
    (q : Query σ φ) (ns : String) (fuel : Nat) :
    (make_query_all_callback_helper c q ns fuel).1 =
      List.range' 1 ((make_query_all_callback_helper c q ns fuel).1).length ∧
    ((make_query_all_callback_helper c q ns fuel).1).Nodup ∧
    ∀ n, 1 ≤ n → (n + 1) ∈ (make_query_all_callback_helper c q ns fuel).1 →
      ∃ pr, page_fetch c q ns n = Except.ok pr ∧ pr.results ≠ [] := by
  obtain ⟨k, hk, htr, hcond⟩ := cb_loop_trace (page_fetch c q ns) fuel 1 [] []
  have htr2 : (make_query_all_callback_helper c q ns fuel).1 =
      List.range' 1 k := by
    rw [helper_cb_eq]
    simpa using htr
  refine ⟨?_, ?_, ?_⟩
  · rw [htr2]; simp
  · rw [htr2]; exact List.nodup_range' 1 k 1
  · intro n hn hmem
    rw [htr2] at hmem
    rw [List.mem_range'_1] at hmem
    obtain ⟨pr, hok, hpne⟩ := hcond (n - 1) (by omega)
    refine ⟨pr, ?_, hpne⟩
    have harith : 1 + (n - 1) = n := by omega
    rw [harith] at hok
    exact hok

/-- Claim C4: the loop terminates on the first empty page and the number
of fetch invocations equals the number of non-empty pages plus one; when
a failure truncates the sequence, the fetch count is the failing page's
number. -/
theorem query_all_fetch_count {σ φ ε α : Type} (c : OsdfClient σ φ ε α)
    (q : Query σ φ) (ns : String) :
    (∀ (fuel : Nat) (prs : List (Page α)) (lastPr : Page α),
      (∀ i (h : i < prs.length),
        page_fetch c q ns (1 + i) = Except.ok prs[i]) →
      (∀ i (h : i < prs.length), i + 1 < prs.length → (prs[i]).results ≠ []) →
      prs.getLast? = some lastPr → lastPr.results = [] →
      prs.length ≤ fuel →
      ((make_query_all_callback_helper c q ns fuel).1).length =
        prs.dropLast.length + 1) ∧
    (∀ (fuel : Nat) (prs : List (Page α)) (e : ε),
      (∀ i (h : i < prs.length),
        page_fetch c q ns (1 + i) = Except.ok prs[i]) →
      (∀ i (h : i < prs.length), (prs[i]).results ≠ []) →
      page_fetch c q ns (1 + prs.length) = Except.error e →
      prs.length + 1 ≤ fuel →
      ((make_query_all_callback_helper c q ns fuel).1).length =
        prs.length + 1) := by
  constructor
  · intro fuel prs lastPr hf hne hlast hemp hfuel
    have h1 : (make_query_all_callback_helper c q ns fuel).1 =
        List.range' 1 prs.length := by
      rw [helper_cb_eq,
        cb_loop_success (page_fetch c q ns) prs 1 [] [] fuel lastPr hf hne
          hlast hemp hfuel]
      simp
    have hnn : prs ≠ [] := by
      intro hh; rw [hh] at hlast; simp at hlast
    have hpos : 0 < prs.length := List.length_pos.mpr hnn
    have h2 : (List.range' 1 prs.length).length = prs.length := by simp
    rw [h1, h2, List.length_dropLast]
    omega
  · intro fuel prs e hf hne herr hfuel
    have h1 : (make_query_all_callback_helper c q ns fuel).1 =
        List.range' 1 (prs.length + 1) := by
      rw [helper_cb_eq,
        cb_loop_error (page_fetch c q ns) prs 1 [] [] fuel e hf hne herr hfuel]
      simp
    rw [h1]
    simp

/-- Claim C5: both query dialects run the aggregation through the one
fetch-capability signature: the dialect only determines which
single-page operation is selected (`oql_query_page` for a string query,
`query_page` for a filter query), and whenever the selected single-page
fetches agree pointwise, the aggregations of a string query and of a
filter query produce identical outcomes in both invocation styles — the
aggregator performs no further branching on the query. -/
theorem query_all_dialect_uniformity {σ φ ε α : Type}
    (c1 c2 : OsdfClient σ φ ε α) (s : σ) (fq : φ) (ns1 ns2 : String)
    (fuel : Nat)
    (h : ∀ page, c1.oql_query_page (Query.str s) ns1 page =
      c2.query_page (Query.filter fq) ns2 page) :
    page_fetch c1 (Query.str s) ns1 =
      (fun page => c1.oql_query_page (Query.str s) ns1 page) ∧
    page_fetch c2 (Query.filter fq) ns2 =
      (fun page => c2.query_page (Query.filter fq) ns2 page) ∧
    make_query_all_promise_helper c1 (Query.str s) ns1 fuel =
      make_query_all_promise_helper c2 (Query.filter fq) ns2 fuel ∧
    make_query_all_callback_helper c1 (Query.str s) ns1 fuel =
      make_query_all_callback_helper c2 (Query.filter fq) ns2 fuel := by
  have hfe : page_fetch c1 (Query.str s) ns1 =
      page_fetch c2 (Query.filter fq) ns2 := by
    funext page
    simpa [page_fetch, Query.isString] using h page
  refine ⟨rfl, rfl, ?_, ?_⟩
  · rw [helper_promise_eq, helper_promise_eq, hfe]
  · rw [helper_cb_eq, helper_cb_eq, hfe]

/-- Claim C6: if the very first page fetch succeeds with an empty result
list, the aggregation succeeds with empty results and zero counts, and
exactly one fetch call (for page 1) is made. -/
theorem query_all_empty_first_page {σ φ ε α : Type} (c : OsdfClient σ φ ε α)
    (q : Query σ φ) (ns : String) (fuel : Nat) (pr : Page α)
    (h1 : page_fetch c q ns 1 = Except.ok pr) (he : pr.results = [])
    (hfuel : 1 ≤ fuel) :
    make_query_all_callback_helper c q ns fuel =
      ([1], some (none, some
        { search_result_total := 0, result_count := 0,
          results := ([] : List α) })) := by
  obtain ⟨n, rfl⟩ : ∃ n, fuel = n + 1 := ⟨fuel - 1, by omega⟩
  rw [helper_cb_eq]
  simp only [query_all_cb_loop, h1]
  rw [if_neg (by simp [he])]
  simp [finalize_cb]

/-- Claim C7: for every query and every fetch behaviour, the
callback-style and the promise-style aggregation helpers produce the
same outcome — the same call sequence, the same aggregated object on
success and the same error value on failure, related by the
callback-convention translation `cb_view`. -/
theorem query_all_callback_promise_agree {σ φ ε α : Type}
    (c : OsdfClient σ φ ε α) (q : Query σ φ) (ns : String) (fuel : Nat) :
    make_query_all_callback_helper c q ns fuel =
      cb_view (make_query_all_promise_helper c q ns fuel) := by
  rw [helper_cb_eq, helper_promise_eq, promise_loop_eq_cb_loop]
  rcases hloop : query_all_cb_loop (page_fetch c q ns) fuel 1 [] []
    with ⟨calls, out⟩
  rcases out with _ | r
  · rfl
  · rcases r with e | acc <;> rfl

/-- Claim C8: the aggregation is deterministic — its outcome is a
function of the (deterministic) per-page fetch results alone, so two
invocations against pointwise-equal page fetch capabilities yield
identical aggregated output. -/
theorem query_all_deterministic {σ φ ε α : Type}
    (c1 c2 : OsdfClient σ φ ε α) (q : Query σ φ) (ns : String) (fuel : Nat)
    (h : ∀ page, page_fetch c1 q ns page = page_fetch c2 q ns page) :
    make_query_all_promise_helper c1 q ns fuel =
      make_query_all_promise_helper c2 q ns fuel := by
  have hfe : page_fetch c1 q ns = page_fetch c2 q ns := funext h
  rw [helper_promise_eq, helper_promise_eq, hfe]

/-- A string without the separator splits into the single segment
consisting of the whole string. -/
theorem splitChar_of_not_mem {sep : Char} :
    ∀ {l : List Char}, sep ∉ l → splitChar sep l = [l] := by
  intro l
  induction l with
  | nil => intro _; rfl
  | cons c cs ih =>
    intro h
    have hc : ¬(c = sep) := by
      intro hh
      exact h (by rw [hh]; exact List.mem_cons_self _ _)
    have hcs : sep ∉ cs := fun hh => h (List.mem_cons_of_mem _ hh)
    simp only [splitChar, if_neg hc, ih hcs]

/-- `splitChar` always produces at least one segment. -/
theorem splitChar_ne_nil {sep : Char} (l : List Char) :
    splitChar sep l ≠ [] := by
  cases l with
  | nil => simp [splitChar]
  | cons c cs =>
    simp only [splitChar]
    by_cases hc : c = sep
    · rw [if_pos hc]; simp
    · rw [if_neg hc]
      rcases hs : splitChar sep cs with _ | ⟨h, t⟩
      · simp
      · simp

/-- A string containing the separator splits into at least two
segments. -/
theorem two_le_splitChar_length {sep : Char} :
    ∀ {l : List Char}, sep ∈ l → 2 ≤ (splitChar sep l).length := by
  intro l
  induction l with
  | nil => intro h; simp at h
  | cons c cs ih =>
    intro h
    simp only [splitChar]
    by_cases hc : c = sep
    · rw [if_pos hc]
      have h1 : 1 ≤ (splitChar sep cs).length := by
        cases hcs : splitChar sep cs with
        | nil => exact absurd hcs (splitChar_ne_nil cs)
        | cons a b => simp
      simp only [List.length_cons]
      omega
    · rw [if_neg hc]
      have hcs : sep ∈ cs := by
        rcases List.mem_cons.mp h with h1 | h2
        · exact absurd h1.symm hc
        · exact h2
      have h2 := ih hcs
      rcases hs : splitChar sep cs with _ | ⟨hd, t⟩
      · exact absurd hs (splitChar_ne_nil cs)
      · rw [hs] at h2
        simp only [List.length_cons] at h2 ⊢
        omega

/-- The default value of `getLastD` is irrelevant on a non-empty
list. -/
theorem getLastD_default_irrelevant {β : Type} (a : β) (ts : List β)
    (x y : β) : (a :: ts).getLastD x = (a :: ts).getLastD y := by
  rw [List.getLastD_cons, List.getLastD_cons]

/-- The last segment produced by `splitChar` — i.e. what
`location.split(sep).pop()` returns — is exactly the part of the string
after the last occurrence of the separator. -/
theorem splitChar_getLastD {sep : Char} :
    ∀ (l : List Char),
      (splitChar sep l).getLastD [] = after_last_sep sep l := by
  intro l
  induction l with
  | nil => rfl
  | cons c cs ih =>
    simp only [splitChar, after_last_sep]
    by_cases hmem : sep ∈ cs
    · rw [if_pos hmem]
      by_cases hc : c = sep
      · rw [if_pos hc, List.getLastD_cons]
        exact ih
      · rw [if_neg hc]
        have h2 := two_le_splitChar_length hmem
        rcases hs : splitChar sep cs with _ | ⟨hd, t⟩
        · exact absurd hs (splitChar_ne_nil cs)
        · rw [hs] at ih h2
          rcases t with _ | ⟨t0, ts⟩
          · simp at h2
          · rw [List.getLastD_cons] at ih ⊢
            exact (getLastD_default_irrelevant t0 ts (c :: hd) hd).trans ih
    · rw [if_neg hmem]
      by_cases hc : c = sep
      · rw [if_pos hc, if_pos hc, List.getLastD_cons,
          splitChar_of_not_mem hmem]
        rfl
      · rw [if_neg hc, if_neg hc, splitChar_of_not_mem hmem]
        rfl

/-- Claim C9: every full-body response decoder (shared by the GET
operations and the single-page query operations) succeeds with the
JSON-parsed body exactly on a 2xx status code, and on any other status
fails with the error value given by the fixed precedence
`x-osdf-error` header, then `statusMessage`, then the numeric status
code; in the callback style the data argument is `null` (`none`) in
every error case. -/
theorem response_decode_status {J : Type} (parse : String → J)
    (r : Response) :
    (200 ≤ r.statusCode ∧ r.statusCode < 300 →
      make_regular_cb parse r = (none, some (parse r.body)) ∧
      make_promise_cb parse r = Except.ok (parse r.body)) ∧
    (¬(200 ≤ r.statusCode ∧ r.statusCode < 300) →
      make_regular_cb parse r = (some (error_value_spec r), none) ∧
      make_promise_cb parse r = Except.error (error_value_spec r)) := by
  constructor
  · intro h
    constructor
    · simp only [make_regular_cb, if_pos h]
    · simp only [make_promise_cb, if_pos h]
  · intro h
    simp only [make_regular_cb, make_promise_cb, error_value_spec, if_neg h]
    rcases hx : List.lookup "x-osdf-error" r.headers with _ | v
    · rcases hm : r.statusMessage with _ | m <;> simp
    · simp

/-- Claim C10: `insert_node` succeeds exactly on a 201 response, in
which case the returned node id is the substring of the `location`
header after its last `'/'` character; any other status yields the
error value given by the usual header / statusMessage / statusCode
precedence. -/
theorem insert_node_status (r : Response) :
    (∀ nid, insert_node_promise_end r = some (Except.ok nid) →
      r.statusCode = 201) ∧
    (∀ loc, List.lookup "location" r.headers = some loc →
      r.statusCode = 201 →
      insert_node_promise_end r = some (Except.ok (after_last_slash loc)) ∧
      insert_node_cb_end r = some (none, some (after_last_slash loc))) ∧
    (r.statusCode ≠ 201 →
      insert_node_promise_end r = some (Except.error (error_value_spec r)) ∧
      insert_node_cb_end r = some (some (error_value_spec r), none)) := by
  refine ⟨?_, ?_, ?_⟩
  · intro nid h
    by_cases h201 : r.statusCode = 201
    · exact h201
    · exfalso
      simp only [insert_node_promise_end, if_neg h201] at h
      rcases hx : List.lookup "x-osdf-error" r.headers with _ | v
      · rw [hx] at h
        rcases hm : r.statusMessage with _ | m
        · rw [hm] at h; simp at h
        · rw [hm] at h; simp at h
      · rw [hx] at h; simp at h
  · intro loc hloc h201
    constructor
    · simp only [insert_node_promise_end, if_pos h201, hloc]
      rw [splitChar_getLastD]
      rfl
    · simp only [insert_node_cb_end, if_pos h201, hloc]
      rw [splitChar_getLastD]
      rfl
  · intro h201
    simp only [insert_node_promise_end, insert_node_cb_end,
      error_value_spec, if_neg h201]
    rcases hx : List.lookup "x-osdf-error" r.headers with _ | v
    · rcases hm : r.statusMessage with _ | m <;> simp
    · simp

/-- Witness for claim C1: the spec's own example — pages
`[[a,b],[c],[]]` aggregate to `results = [a,b,c]` with both counts 3 and
the fetched pages being exactly 1, 2, 3. -/
theorem query_all_aggregates_all_pages_witness :
    make_query_all_callback_helper (testClient [[10, 20], [30]] none)
        (Query.str "q") "ns" 3 =
      ([1, 2, 3], some (none, some
        { search_result_total := 3, result_count := 3,
          results := [10, 20, 30] })) := by
  have h := query_all_aggregates_all_pages (testClient [[10, 20], [30]] none)
    (Query.str "q") "ns" 3
    [⟨[10, 20], 2, 2, 1⟩, ⟨[30], 1, 1, 2⟩, ⟨[], 0, 0, 3⟩] ⟨[], 0, 0, 3⟩
    (by decide) (by decide) (by decide) (by decide) (by decide)
  exact h.trans (by decide)

/-- Witness for claim C2: page 1 succeeds non-empty, page 2 fails with
`"boom"`; the aggregation rejects with `"boom"` and fetches exactly
pages 1 and 2. -/
theorem query_all_error_propagation_witness :
    make_query_all_promise_helper (testClient [[10, 20]] (some 2))
        (Query.str "q") "ns" 4 =
      ([1, 2], some (Except.error "boom")) := by
  have h := (query_all_error_propagation (testClient [[10, 20]] (some 2))
    (Query.str "q") "ns" 4 [⟨[10, 20], 2, 2, 1⟩] "boom"
    (by decide) (by decide) (by decide) (by decide)).1
  exact h.trans (by decide)

/-- Witness for claim C3, instantiated at a concrete client: the call
log is a gap-free run from 1, and since page 2 was fetched, page 1 must
have succeeded with a non-empty result list. -/
theorem query_all_page_sequencing_witness :
    (make_query_all_callback_helper (testClient [[10, 20], [30]] none)
        (Query.str "q") "ns" 5).1 =
      List.range' 1 ((make_query_all_callback_helper
        (testClient [[10, 20], [30]] none) (Query.str "q") "ns" 5).1).length ∧
    ∃ pr, page_fetch (testClient [[10, 20], [30]] none) (Query.str "q") "ns" 1 =
      Except.ok pr ∧ pr.results ≠ [] := by
  have h := query_all_page_sequencing (testClient [[10, 20], [30]] none)
    (Query.str "q") "ns" 5
  exact ⟨h.1, h.2.2 1 (by decide) (by decide)⟩

/-- Witness for claim C4: two non-empty pages plus the final empty page
give three fetches; a failure at page 2 gives two fetches. -/
theorem query_all_fetch_count_witness :
    ((make_query_all_callback_helper (testClient [[10, 20], [30]] none)
        (Query.str "q") "ns" 3).1).length = 3 ∧
    ((make_query_all_callback_helper (testClient [[10, 20]] (some 2))
        (Query.str "q") "ns" 4).1).length = 2 := by
  constructor
  · have h := (query_all_fetch_count (testClient [[10, 20], [30]] none)
      (Query.str "q") "ns").1 3
      [⟨[10, 20], 2, 2, 1⟩, ⟨[30], 1, 1, 2⟩, ⟨[], 0, 0, 3⟩] ⟨[], 0, 0, 3⟩
      (by decide) (by decide) (by decide) (by decide) (by decide)
    exact h.trans (by decide)
  · have h := (query_all_fetch_count (testClient [[10, 20]] (some 2))
      (Query.str "q") "ns").2 4 [⟨[10, 20], 2, 2, 1⟩] "boom"
      (by decide) (by decide) (by decide) (by decide)
    exact h.trans (by decide)

/-- Witness for claim C5: with the two page operations agreeing, a
string query and a filter query aggregate to the same outcome. -/
theorem query_all_dialect_uniformity_witness :
    make_query_all_promise_helper (testClient [[7]] none) (Query.str "a")
        "n1" 3 =
      make_query_all_promise_helper (testClient [[7]] none) (Query.filter 0)
        "n2" 3 :=
  (query_all_dialect_uniformity (testClient [[7]] none) (testClient [[7]] none)
    "a" 0 "n1" "n2" 3 (fun _ => rfl)).2.2.1

/-- Witness for claim C6: an empty first page gives empty results, zero
counts and a single fetch of page 1. -/
theorem query_all_empty_first_page_witness :
    make_query_all_callback_helper (testClient [] none) (Query.str "q")
        "ns" 1 =
      ([1], some (none, some
        { search_result_total := 0, result_count := 0,
          results := ([] : List Nat) })) :=
  query_all_empty_first_page (testClient [] none) (Query.str "q") "ns" 1
    ⟨[], 0, 0, 1⟩ (by decide) (by decide) (by decide)

/-- Witness for claim C8: two differently built clients whose page
fetches agree pointwise (one serves an explicit trailing empty page, the
other runs out of pages) aggregate identically. -/
theorem query_all_deterministic_witness :
    make_query_all_promise_helper (testClient [[7]] none) (Query.str "a")
        "ns" 3 =
      make_query_all_promise_helper (testClient [[7], []] none)
        (Query.str "a") "ns" 3 := by
  refine query_all_deterministic (testClient [[7]] none)
    (testClient [[7], []] none) (Query.str "a") "ns" 3 ?_
  intro page
  match page with
  | 0 => rfl
  | 1 => rfl
  | 2 => rfl
  | n + 3 => rfl

/-- Witness for claim C9: a 200 response decodes to its parsed body; a
404 response carrying an `x-osdf-error` header rejects with that
header's value. -/
theorem response_decode_status_witness :
    make_regular_cb (fun s => s)
        { statusCode := 200, statusMessage := none, headers := [],
          body := "okbody" } =
      (none, some "okbody") ∧
    make_promise_cb (fun s => s)
        { statusCode := 404, statusMessage := some "Not Found",
          headers := [("x-osdf-error", "bad")], body := "" } =
      Except.error (JsVal.str "bad") := by
  constructor
  · exact ((response_decode_status (fun s => s)
      { statusCode := 200, statusMessage := none, headers := [],
        body := "okbody" }).1 (by decide)).1
  · have h := ((response_decode_status (fun s => s)
      { statusCode := 404, statusMessage := some "Not Found",
        headers := [("x-osdf-error", "bad")], body := "" }).2 (by decide)).2
    rw [h]
    decide

/-- Witness for claim C10: a 201 response with
`location: /nodes/abc123` resolves with node id `"abc123"`; a plain 500
response rejects with the numeric status code. -/
theorem insert_node_status_witness :
    insert_node_promise_end
        { statusCode := 201, statusMessage := none,
          headers := [("location", "/nodes/abc123")], body := "" } =
      some (Except.ok "abc123") ∧
    insert_node_cb_end
        { statusCode := 500, statusMessage := none, headers := [],
          body := "" } =
      some (some (JsVal.num 500), none) := by
  constructor
  · have h := ((insert_node_status
      { statusCode := 201, statusMessage := none,
        headers := [("location", "/nodes/abc123")], body := "" }).2.1
      "/nodes/abc123" (by decide) (by decide)).1
    rw [h]
    decide
  · have h := ((insert_node_status
      { statusCode := 500, statusMessage := none, headers := [],
        body := "" }).2.2 (by decide)).2
    rw [h]
    decide

end Osdf
